import Mathlib

/-!
Shallow embedding of the laserchicken fragment under verification:
neighborhood gathering (src/laserchicken/utils.py, get_xyz_per_neighborhood
and get_attributes_per_neighborhood), point-cloud copying and selection
(copy_point_cloud in utils.py; select_below / select_above modelled from the
spec, their module is not part of the sources), provenance (add_metadata),
the feature-name registry (src/laserchicken/feature_extractor/feature_map.py)
and the skew extractor
(src/laserchicken/feature_extractor/skew_z_feature_extractor.py).

Attribute values (numpy float64 arrays in the source) are embedded as exact
rationals: every operation the claims concern only moves values around or
compares them, it never does float arithmetic.
-/

/-- Python exception kinds observable in the embedded fragment. -/
inductive PyErr where
  | valueError
  | indexError
  | keyError
deriving DecidableEq, Repr, BEq

/-- Result of a float-returning computation: a number or not-a-number
(np.NaN in the source). -/
inductive PyFloat where
  | nan
  | val (q : ℚ)
deriving DecidableEq, Repr

/-- Masked 3-dimensional tensor, mirroring the np.ma.MaskedArray of shape
(n, c, l) that the gatherers return; a mask entry that is true marks an
invalid (padded) cell. -/
structure MaskedTensor where
  n : Nat
  c : Nat
  l : Nat
  data : Nat → Nat → Nat → ℚ
  mask : Nat → Nat → Nat → Bool

/-- Numpy integer indexing into an axis of size n: a non-negative index is
valid when below n, a negative index wraps around from the end when at least
-n; anything else is out of bounds (IndexError in numpy, none here). -/
def resolveIndex (n : Nat) (e : Int) : Option Nat :=
  if 0 ≤ e then (if e < (n : Int) then some e.toNat else none)
  else (if 0 ≤ e + (n : Int) then some (e + (n : Int)).toNat else none)

/-- Maximum neighborhood length: lengths.max() over the source's int array
of lengths (the callers raise before this is used on an empty list). -/
def maxNbLength (nbs : List (List Int)) : Nat :=
  (nbs.map List.length).foldr Nat.max 0

/-- Entry (i, j) of the indices matrix built inside get_xyz_per_neighborhood:
row i starts as arange(max_length) and its first len(neighborhood i)
positions are overwritten, in order, with that neighborhood's indices
(the masked assignment from np.concatenate(neighborhoods)). -/
def indicesEntry (nbs : List (List Int)) (i j : Nat) : Int :=
  (nbs.getD i []).getD j (Int.ofNat j)

/-- Channel c of row k of np.column_stack((x, y, z)): channel 0 is x,
channel 1 is y, channel 2 is z; the tensor has exactly 3 channels. -/
def coordVal (xs ys zs : List ℚ) (c k : Nat) : ℚ :=
  if c = 0 then xs.getD k 0
  else if c = 1 then ys.getD k 0
  else if c = 2 then zs.getD k 0
  else 0

/-- Value xyz.take picks for cell (i, c, j) before masked cells are zeroed:
the indices-matrix entry resolved against the source length (the none case
cannot be reached once the whole take has been checked in-bounds). -/
def xyzRaw (xs ys zs : List ℚ) (nbs : List (List Int)) (i c j : Nat) : ℚ :=
  match resolveIndex xs.length (indicesEntry nbs i j) with
  | some k => coordVal xs ys zs c k
  | none => 0

/-- Data of the returned tensor: the taken value, with invalid cells set to
zero by the masked assignment at the end of get_xyz_per_neighborhood. -/
def xyzData (xs ys zs : List ℚ) (nbs : List (List Int)) (i c j : Nat) : ℚ :=
  if j < (nbs.getD i []).length then xyzRaw xs ys zs nbs i c j else 0

/-- Mask of the returned tensor (identical for every channel): cell (i, _, j)
is invalid exactly when j is at or past the length of neighborhood i. -/
def nbMask (nbs : List (List Int)) (i _c j : Nat) : Bool :=
  !decide (j < (nbs.getD i []).length)

/-- Whether the entire xyz.take(indices) is in bounds: every entry of the
indices matrix, padding positions included, must resolve against the source
point count, else numpy raises IndexError. -/
def xyzGuard (n : Nat) (nbs : List (List Int)) : Bool :=
  (List.range nbs.length).all fun i =>
    (List.range (maxNbLength nbs)).all fun j =>
      (resolveIndex n (indicesEntry nbs i j)).isSome

/-- Embedding of get_xyz_per_neighborhood (utils.py lines 19-46).
lengths.max() raises ValueError on an empty neighborhoods list;
np.column_stack raises ValueError when the coordinate arrays differ in
length; xyz.take raises IndexError when any indices-matrix entry is out of
bounds; otherwise the masked tensor of shape (len nbs, 3, max length) is
returned with padded cells zeroed and masked invalid. -/
def get_xyz_per_neighborhood (xs ys zs : List ℚ) (nbs : List (List Int)) :
    Except PyErr MaskedTensor :=
  if nbs.isEmpty then .error .valueError
  else if xs.length = ys.length ∧ ys.length = zs.length then
    if xyzGuard xs.length nbs then
      .ok ⟨nbs.length, 3, maxNbLength nbs, xyzData xs ys zs nbs, nbMask nbs⟩
    else .error .indexError
  else .error .valueError

/-- Whether a gatherer call returned a tensor rather than raising. -/
def resultOk (r : Except PyErr MaskedTensor) : Bool :=
  match r with
  | .ok _ => true
  | .error _ => false

/-- Data cell (i, c, j) of a gatherer result, none when it raised. -/
def resultData (r : Except PyErr MaskedTensor) (i c j : Nat) : Option ℚ :=
  match r with
  | .ok t => some (t.data i c j)
  | .error _ => none

/-- Mask cell (i, c, j) of a gatherer result, none when it raised. -/
def resultMask (r : Except PyErr MaskedTensor) (i c j : Nat) : Option Bool :=
  match r with
  | .ok t => some (t.mask i c j)
  | .error _ => none

/-- Shape (n, c, l) of a gatherer result, none when it raised. -/
def resultShape (r : Except PyErr MaskedTensor) : Option (Nat × Nat × Nat) :=
  match r with
  | .ok t => some (t.n, t.c, t.l)
  | .error _ => none

/-- Attribute mapping of a point cloud: the ordered dict under the points
key, attribute name to data array. -/
def lookupAttr (attrs : List (String × List ℚ)) (name : String) :
    Option (List ℚ) :=
  (attrs.find? fun p => decide (p.1 = name)).map (fun p => p.2)

/-- First exception get_attribute_value(point_cloud, neighborhood, name)
raises for one neighborhood and one attribute: KeyError when the attribute
is missing from the points mapping, IndexError when some neighbor index is
out of bounds for that attribute's array, none when the lookup succeeds. -/
def attrGatherErr (attrs : List (String × List ℚ)) (nb : List Int)
    (name : String) : Option PyErr :=
  match lookupAttr attrs name with
  | none => some .keyError
  | some arr =>
      if nb.all fun e => (resolveIndex arr.length e).isSome then none
      else some .indexError

/-- First exception the gathering loop of get_attributes_per_neighborhood
raises: neighborhoods are visited in order, empty ones are skipped
(the n_neighbors is 0 continue), and for each the attributes are visited in
the caller-supplied order. -/
def attrsGuardErr (attrs : List (String × List ℚ)) (nbs : List (List Int))
    (names : List String) : Option PyErr :=
  (nbs.filter fun nb => !nb.isEmpty).findSome? fun nb =>
    names.findSome? (attrGatherErr attrs nb)

/-- Data of the tensor get_attributes_per_neighborhood returns: a zero
array of shape (len nbs, len names, max length) whose first len(nb) slots
of row i, channel a are assigned that attribute's values at nb's indices. -/
def attrData (attrs : List (String × List ℚ)) (nbs : List (List Int))
    (names : List String) (i a j : Nat) : ℚ :=
  if j < (nbs.getD i []).length then
    match lookupAttr attrs (names.getD a "") with
    | some arr =>
        match resolveIndex arr.length ((nbs.getD i []).getD j 0) with
        | some k => arr.getD k 0
        | none => 0
    | none => 0
  else 0

/-- Embedding of get_attributes_per_neighborhood (utils.py lines 49-69).
max() raises ValueError on an empty neighborhoods list; the loop raises
KeyError or IndexError through get_attribute_value as in attrsGuardErr;
otherwise the masked tensor of shape (len nbs, len names, max length) is
returned whose mask (built from mask == 0) invalidates exactly the padded
cells. -/
def get_attributes_per_neighborhood (attrs : List (String × List ℚ))
    (nbs : List (List Int)) (names : List String) :
    Except PyErr MaskedTensor :=
  if nbs.isEmpty then .error .valueError
  else
    match attrsGuardErr attrs nbs names with
    | some e => .error e
    | none =>
        .ok ⟨nbs.length, names.length, maxNbLength nbs,
             attrData attrs nbs names, nbMask nbs⟩

mutual
/-- Value of a Python dict tree as copy_point_cloud walks it: a nested dict
(insertion-ordered), a numpy array (of per-point values), or any other value
(scalars, strings, lists of strings), which is kept as-is. -/
inductive PCValue where
  | dict (entries : PCEntries)
  | array (data : List ℚ)
  | other (tag : String)
inductive PCEntries where
  | nil
  | cons (key : String) (value : PCValue) (rest : PCEntries)
end

/-- Lookup in an embedded dict, first binding of the key. -/
def entriesGet : PCEntries → String → Option PCValue
  | .nil, _ => none
  | .cons k v rest, key => if k = key then some v else entriesGet rest key

/-- Python truthiness of the elements of a numeric array: any(value) is
true exactly when some element is nonzero. -/
def pyAny (xs : List ℚ) : Bool :=
  xs.any fun q => decide (q ≠ 0)

/-- Numpy boolean-mask indexing value[array_mask]: keep the elements at the
true positions (the arrays the source applies it to have the mask's
length). -/
def maskFilter (xs : List ℚ) (mask : List Bool) : List ℚ :=
  (xs.zip mask).filterMap fun p => if p.2 then some p.1 else none

mutual
/-- Embedding of copy_point_cloud (utils.py lines 115-135): dict values are
copied recursively, ndarray values are mask-indexed only when any(value)
holds (else copied whole), every other value is kept. -/
def copy_point_cloud : PCValue → Option (List Bool) → PCValue
  | .dict es, m => .dict (copyEntries es m)
  | .array d, some mk => if pyAny d then .array (maskFilter d mk) else .array d
  | .array d, none => .array d
  | .other t, _ => .other t
termination_by structural v => v
def copyEntries : PCEntries → Option (List Bool) → PCEntries
  | .nil, _ => .nil
  | .cons k v rest, m => .cons k (copy_point_cloud v m) (copyEntries rest m)
termination_by structural es => es
end

mutual
/-- Check that every array anywhere under a point-cloud value has length n
(the data-model invariant for the per-point arrays; the embedded clouds
keep cloud-level scalars as other values). -/
def arraysHaveLen : PCValue → Nat → Bool
  | .dict es, n => entriesHaveLen es n
  | .array d, n => decide (d.length = n)
  | .other _, _ => true
termination_by structural v => v
def entriesHaveLen : PCEntries → Nat → Bool
  | .nil, _ => true
  | .cons _ v rest, n => arraysHaveLen v n && entriesHaveLen rest n
termination_by structural es => es
end

/-- Data array of one attribute of a point cloud: the value at
pc[points][attr][data], none when any level is missing or ill-shaped. -/
def getAttrData (p : PCValue) (attr : String) : Option (List ℚ) :=
  match p with
  | .dict es =>
      match entriesGet es "points" with
      | some (.dict pes) =>
          match entriesGet pes attr with
          | some (.dict aes) =>
              match entriesGet aes "data" with
              | some (.array d) => some d
              | _ => none
          | _ => none
      | _ => none
  | _ => none

/-- Threshold argument of the selection utilities; the spec's testable
properties use the infinities explicitly. -/
inductive Threshold where
  | ninf
  | fin (q : ℚ)
  | pinf
deriving DecidableEq, Repr

/-- Strictly-below comparison of an attribute value against a threshold. -/
def tLT (q : ℚ) (t : Threshold) : Bool :=
  match t with
  | .ninf => false
  | .fin c => decide (q < c)
  | .pinf => true

/-- Strictly-above comparison of an attribute value against a threshold. -/
def tGT (q : ℚ) (t : Threshold) : Bool :=
  match t with
  | .ninf => true
  | .fin c => decide (c < q)
  | .pinf => false

/-- Modelled from the spec: the selection module defining select_below and
select_above is not among the sources, only its tests are. Per the spec
(section 4.4 and the tested properties) a selection validates its inputs -
ValueError when the point cloud is absent, the attribute name is absent, or
the attribute is not in the points mapping - then builds the boolean keep
mask by comparing the attribute's data against the threshold and returns
copy_point_cloud of the input under that mask. -/
def select_generic (keep : ℚ → Threshold → Bool) (pc : Option PCValue)
    (attr : Option String) (t : Threshold) : Except PyErr PCValue :=
  match pc with
  | none => .error .valueError
  | some p =>
      match attr with
      | none => .error .valueError
      | some a =>
          match getAttrData p a with
          | none => .error .valueError
          | some d => .ok (copy_point_cloud p (some (d.map fun q => keep q t)))

/-- Modelled from the spec: select_below keeps the points whose attribute
value is below the threshold. -/
def select_below (pc : Option PCValue) (attr : Option String)
    (t : Threshold) : Except PyErr PCValue :=
  select_generic tLT pc attr t

/-- Modelled from the spec: select_above keeps the points whose attribute
value is above the threshold. -/
def select_above (pc : Option PCValue) (attr : Option String)
    (t : Threshold) : Except PyErr PCValue :=
  select_generic tGT pc attr t

/-- Feature extractor instance as feature_map.py uses one: an identifying
tag (the concrete class and parameters, which live outside the sources) and
the list of feature names its provides() returns. -/
structure Extractor where
  tag : String
  provides : List String
deriving DecidableEq, Repr

/-- Embedding of _create_name_extractor_pairs (feature_map.py lines 28-34):
one (feature name, extractor) pair per provided name, extractors in list
order, names in provides() order. -/
def _create_name_extractor_pairs (extractors : List Extractor) :
    List (String × Extractor) :=
  extractors.flatMap fun e => e.provides.map fun nm => (nm, e)

/-- One step of a Python dict comprehension: binding a key that is already
present overwrites its value in place, a new key is appended. -/
def pyDictInsert (d : List (String × Extractor)) (k : String)
    (v : Extractor) : List (String × Extractor) :=
  if d.any fun p => decide (p.1 = k) then
    d.map fun p => if p.1 = k then (k, v) else p
  else d ++ [(k, v)]

/-- Python dict built from a pair list: later bindings of a key overwrite
earlier ones, silently. -/
def pyDictOf (pairs : List (String × Extractor)) :
    List (String × Extractor) :=
  pairs.foldl (fun d p => pyDictInsert d p.1 p.2) []

/-- Embedding of create_default_feature_map (feature_map.py lines 21-25)
over a given extractor list: the concrete default extractor instances of
_get_default_extractors are classes outside the sources, so the mapping
construction is stated for an arbitrary extractor list. The source builds
the dict comprehension over the name-extractor pairs with no duplicate
check of any kind. -/
def create_default_feature_map (extractors : List Extractor) :
    List (String × Extractor) :=
  pyDictOf (_create_name_extractor_pairs extractors)

/-- Lookup in the built feature map. -/
def dictLookup (d : List (String × Extractor)) (k : String) :
    Option Extractor :=
  (d.find? fun p => decide (p.1 = k)).map fun p => p.2

/-- Provenance record as add_metadata builds one: time, module, version
and, only when any(params) holds, the parameters. -/
structure ProvRecord where
  time : Nat
  module : String
  parameters : Option (List String)
  version : String
deriving DecidableEq, Repr

/-- Point cloud as add_metadata sees one: the per-point attribute arrays
and the provenance list, which may be missing (none) before the first
record is added. -/
structure MetaPC where
  points : List (String × List ℚ)
  provenance : Option (List ProvRecord)
deriving DecidableEq, Repr

/-- Python truthiness of the entries of params: any(params) iterates a
dict's keys (a list's elements), and a string is truthy when non-empty. -/
def pyAnyStr (params : List String) : Bool :=
  params.any fun s => decide (s ≠ "")

/-- Embedding of add_metadata (utils.py lines 138-154): builds the message
with time and module, adds parameters only when any(params) holds, adds
version, creates the provenance list when missing and appends the message.
The module argument is embedded as its name string (the source takes
module.__name__ when present, else str(module) - a string either way); the
current UTC time and the package version are passed in as values. -/
def add_metadata (pc : MetaPC) (module : String) (params : List String)
    (now : Nat) (version : String) : MetaPC :=
  { pc with provenance := some (pc.provenance.getD [] ++
      [{ time := now
         module := module
         parameters := if pyAnyStr params then some params else none
         version := version }]) }

/-- Python truthiness of the neighborhood argument: None and the empty list
are falsy. -/
def pyTruthyNb (nb : Option (List Int)) : Bool :=
  match nb with
  | none => false
  | some l => !l.isEmpty

/-- Numpy fancy indexing data[neighborhood]: the values at the (possibly
negative, wrapped) indices, none (IndexError) when one is out of bounds. -/
def fancyIndex (arr : List ℚ) (idxs : List Int) : Option (List ℚ) :=
  idxs.mapM fun e => (resolveIndex arr.length e).map fun k => arr.getD k 0

/-- Embedding of SkewZFeatureExtractor.extract (skew_z_feature_extractor.py
lines 18-24): a truthy neighborhood is gathered from the z data and handed
to scipy.stats.skew, a falsy one (None or empty) yields np.NaN without
touching the data. scipy is outside the sources, so the statistic is a
parameter skewStat of the embedding. -/
def skew_z_extract (skewStat : List ℚ → PyFloat) (z : List ℚ)
    (neighborhood : Option (List Int)) : Except PyErr PyFloat :=
  if pyTruthyNb neighborhood then
    match fancyIndex z (neighborhood.getD []) with
    | some zs => .ok (skewStat zs)
    | none => .error .indexError
  else .ok PyFloat.nan

/-- Concrete point cloud mirroring the structure of test_select.py's
get_test_data: a log entry, a cloud-level scalar offset, and four per-point
attribute arrays of length 3 (values integer-scaled to stay exact). -/
def testPC : PCValue :=
  .dict (.cons "log" (.other "loglist")
    (.cons "pointcloud"
      (.dict (.cons "offset"
        (.dict (.cons "type" (.other "double")
          (.cons "data" (.other "scalar") .nil))) .nil))
      (.cons "points" (.dict
        (.cons "x" (.dict (.cons "type" (.other "double")
          (.cons "data" (.array [11, 12, 13]) .nil)))
          (.cons "y" (.dict (.cons "type" (.other "double")
            (.cons "data" (.array [21, 22, 23]) .nil)))
            (.cons "z" (.dict (.cons "type" (.other "double")
              (.cons "data" (.array [31, 32, 33]) .nil)))
              (.cons "return" (.dict (.cons "type" (.other "int")
                (.cons "data" (.array [1, 1, 2]) .nil))) .nil)))))
        .nil)))

/-- Concrete point cloud with one ordinary attribute array and one whose
values are all zero, both of length 2. -/
def zeroBugPC : PCValue :=
  .dict (.cons "points" (.dict
    (.cons "x" (.dict (.cons "data" (.array [1, 2]) .nil))
      (.cons "a" (.dict (.cons "data" (.array [0, 0]) .nil)) .nil))) .nil)

/-- Concrete point cloud with one existing provenance record. -/
def provPC : MetaPC :=
  { points := [("x", [1])]
    provenance := some [{ time := 0, module := "load", parameters := none, version := "v0" }] }

/-- Two distinct extractor instances providing the same feature name. -/
def dupExtractorA : Extractor := { tag := "ParamFamilyA", provides := ["f"] }

/-- Second extractor instance providing the feature name of the first. -/
def dupExtractorB : Extractor := { tag := "ParamFamilyB", provides := ["f"] }

lemma resolveIndex_ofNat (n k : Nat) (h : k < n) :
    resolveIndex n (Int.ofNat k) = some k := by
  unfold resolveIndex
  rw [Int.ofNat_eq_natCast]
  have h0 : (0 : Int) ≤ (k : Int) := by omega
  have h1 : (k : Int) < (n : Int) := by omega
  simp [h0, h1]

lemma resolveIndex_neg (n k : Nat) (h1 : 1 ≤ k) (h2 : k ≤ n) :
    resolveIndex n (-(k : Int)) = some (n - k) := by
  unfold resolveIndex
  have ha : ¬ ((0 : Int) ≤ -(k : Int)) := by omega
  have hb : (0 : Int) ≤ -(k : Int) + (n : Int) := by omega
  simp only [ha, if_false, hb, if_true]
  congr 1
  omega

lemma resolveIndex_none_of_out (n : Nat) (e : Int)
    (h : e < -(n : Int) ∨ (n : Int) ≤ e) : resolveIndex n e = none := by
  unfold resolveIndex
  rcases h with h | h
  · have ha : ¬ ((0 : Int) ≤ e) := by omega
    have hb : ¬ ((0 : Int) ≤ e + (n : Int)) := by omega
    simp [ha, hb]
  · have ha : (0 : Int) ≤ e := by omega
    have hb : ¬ (e < (n : Int)) := by omega
    simp [ha, hb]

lemma resolveIndex_isSome_of_range (n : Nat) (e : Int)
    (h1 : -(n : Int) ≤ e) (h2 : e < (n : Int)) :
    (resolveIndex n e).isSome = true := by
  unfold resolveIndex
  by_cases h0 : (0 : Int) ≤ e
  · simp [h0, h2]
  · have hb : (0 : Int) ≤ e + (n : Int) := by omega
    simp [h0, hb]

lemma length_le_maxNbLength (nbs : List (List Int)) (nb : List Int)
    (h : nb ∈ nbs) : nb.length ≤ maxNbLength nbs := by
  induction nbs with
  | nil => cases h
  | cons hd tl ih =>
      rcases List.mem_cons.mp h with rfl | h
      · exact Nat.le_max_left _ _
      · exact Nat.le_trans (ih h) (Nat.le_max_right _ _)

lemma length_le_flatten_length (nbs : List (List Int)) (nb : List Int)
    (h : nb ∈ nbs) : nb.length ≤ nbs.flatten.length := by
  induction nbs with
  | nil => cases h
  | cons hd tl ih =>
      rcases List.mem_cons.mp h with rfl | h
      · simp
      · have := ih h
        simp only [List.flatten_cons, List.length_append]
        omega

lemma maxNbLength_le_flatten_length (nbs : List (List Int)) :
    maxNbLength nbs ≤ nbs.flatten.length := by
  induction nbs with
  | nil => simp [maxNbLength]
  | cons hd tl ih =>
      have hmax : maxNbLength (hd :: tl) = Nat.max hd.length (maxNbLength tl) := rfl
      rw [hmax]
      simp only [List.flatten_cons, List.length_append]
      exact Nat.max_le.mpr (by omega)

lemma getD_mem (l : List Int) (i : Nat) (d : Int) (h : i < l.length) :
    l.getD i d ∈ l := by
  rw [List.getD_eq_getElem l d h]
  exact List.getElem_mem h

lemma getD_mem_of_mem_getD (nbs : List (List Int)) (i j : Nat) (d : Int)
    (hi : i < nbs.length) (hj : j < (nbs.getD i []).length) :
    (nbs.getD i []).getD j d ∈ nbs.flatten := by
  have h1 : nbs.getD i [] ∈ nbs := by
    rw [List.getD_eq_getElem nbs [] hi]
    exact List.getElem_mem hi
  exact List.mem_flatten.mpr ⟨nbs.getD i [], h1, getD_mem _ _ _ hj⟩

lemma get_xyz_ok_inv (xs ys zs : List ℚ) (nbs : List (List Int))
    (t : MaskedTensor) (h : get_xyz_per_neighborhood xs ys zs nbs = .ok t) :
    t = ⟨nbs.length, 3, maxNbLength nbs, xyzData xs ys zs nbs, nbMask nbs⟩ := by
  unfold get_xyz_per_neighborhood at h
  split at h
  · cases h
  · split at h
    · split at h
      · exact (Except.ok.inj h).symm
      · cases h
    · cases h

lemma get_attrs_ok_inv (attrs : List (String × List ℚ))
    (nbs : List (List Int)) (names : List String)
    (u : MaskedTensor) (h : get_attributes_per_neighborhood attrs nbs names = .ok u) :
    u = ⟨nbs.length, names.length, maxNbLength nbs, attrData attrs nbs names, nbMask nbs⟩ := by
  unfold get_attributes_per_neighborhood at h
  split at h
  · cases h
  · split at h
    · cases h
    · exact (Except.ok.inj h).symm

/-- C5: for every source z array, SkewZFeatureExtractor.extract with an
absent (None) or empty neighborhood returns not-a-number - it is a normal
return (no exception) and not-a-number is a different constructor from any
numeric value, in particular zero - for every possible behavior of the
external scipy skew statistic. -/
theorem claim_C5 (skewStat : List ℚ → PyFloat) (z : List ℚ) :
    skew_z_extract skewStat z none = Except.ok PyFloat.nan ∧
    skew_z_extract skewStat z (some []) = Except.ok PyFloat.nan ∧
    decide (PyFloat.nan = PyFloat.val 0) = false :=
  ⟨rfl, rfl, rfl⟩

/-- C3: whenever a gatherer call returns a tensor, every cell of row i at a
position at or past the length of neighborhood i holds the filler 0 and is
marked invalid in the mask, in every channel, for both the coordinate and
the generic-attribute variant; an empty neighborhood (length 0) therefore
yields an all-invalid row. -/
theorem claim_C3 (xs ys zs : List ℚ) (attrs : List (String × List ℚ))
    (nbs : List (List Int)) (names : List String) (i c j : Nat)
    (hpad : (nbs.getD i []).length ≤ j) :
    (resultOk (get_xyz_per_neighborhood xs ys zs nbs) = true →
      resultData (get_xyz_per_neighborhood xs ys zs nbs) i c j = some 0 ∧
      resultMask (get_xyz_per_neighborhood xs ys zs nbs) i c j = some true) ∧
    (resultOk (get_attributes_per_neighborhood attrs nbs names) = true →
      resultData (get_attributes_per_neighborhood attrs nbs names) i c j = some 0 ∧
      resultMask (get_attributes_per_neighborhood attrs nbs names) i c j = some true) := by
  have hnlt : ¬ (j < (nbs.getD i []).length) := Nat.not_lt.mpr hpad
  constructor
  · intro hok
    cases hE : get_xyz_per_neighborhood xs ys zs nbs with
    | error e => rw [hE] at hok; simp [resultOk] at hok
    | ok t =>
        have ht := get_xyz_ok_inv xs ys zs nbs t hE
        subst ht
        have hpad2 : (nbs[i]?.getD []).length ≤ j := by
          simpa [List.getD_eq_getElem?_getD] using hpad
        simp [hE, resultData, resultMask, xyzData, nbMask]
        exact ⟨fun hlt => absurd hlt (Nat.not_lt.mpr hpad2), hpad2⟩
  · intro hok
    cases hE : get_attributes_per_neighborhood attrs nbs names with
    | error e => rw [hE] at hok; simp [resultOk] at hok
    | ok u =>
        have hu := get_attrs_ok_inv attrs nbs names u hE
        subst hu
        have hpad2 : (nbs[i]?.getD []).length ≤ j := by
          simpa [List.getD_eq_getElem?_getD] using hpad
        simp [hE, resultData, resultMask, attrData, nbMask]
        exact ⟨fun hlt => absurd hlt (Nat.not_lt.mpr hpad2), hpad2⟩

/-- C3 witness: concrete gathering over two neighborhoods, the second one
empty: its row is zero-filled and all-invalid in both variants. -/
theorem claim_C3_witness :
    resultData (get_xyz_per_neighborhood [1] [2] [3] [[0], []]) 1 0 0 = some 0 ∧
    resultMask (get_xyz_per_neighborhood [1] [2] [3] [[0], []]) 1 0 0 = some true ∧
    resultData (get_attributes_per_neighborhood [("x", [5])] [[0], []] ["x"]) 1 0 0 = some 0 ∧
    resultMask (get_attributes_per_neighborhood [("x", [5])] [[0], []] ["x"]) 1 0 0 = some true := by
  have h := claim_C3 [1] [2] [3] [("x", [5])] [[0], []] ["x"] 1 0 0 (by decide)
  exact ⟨(h.1 (by decide)).1, (h.1 (by decide)).2, (h.2 (by decide)).1, (h.2 (by decide)).2⟩

/-- C6: evaluation of copy_point_cloud at the failing input. On a cloud
whose attribute x has data [1, 2] and whose attribute a has data [0, 0],
selecting with the mask [true, false] returns x with 1 element but a still
with its 2 elements: the any(value) guard in copy_point_cloud skips the
mask for an all-zero array, so the equal-length invariant is broken. -/
theorem claim_C6 :
    getAttrData (copy_point_cloud zeroBugPC (some [true, false])) "x" = some [1] ∧
    getAttrData (copy_point_cloud zeroBugPC (some [true, false])) "a" = some [0, 0] :=
  ⟨rfl, rfl⟩

/-- C8: both selection utilities fail with ValueError, immediately at the
call, when the point cloud is absent, when the attribute name is absent,
or when the attribute name is not in the point cloud's attribute mapping
(selection is modelled from the spec, its module is not in the sources). -/
theorem claim_C8 (p : PCValue) (a : String) (t : Threshold)
    (hmiss : getAttrData p a = none) :
    select_below none (some a) t = Except.error PyErr.valueError ∧
    select_above none (some a) t = Except.error PyErr.valueError ∧
    select_below (some p) none t = Except.error PyErr.valueError ∧
    select_above (some p) none t = Except.error PyErr.valueError ∧
    select_below (some p) (some a) t = Except.error PyErr.valueError ∧
    select_above (some p) (some a) t = Except.error PyErr.valueError := by
  refine ⟨rfl, rfl, rfl, rfl, ?_, ?_⟩ <;>
    simp [select_below, select_above, select_generic, hmiss]

/-- C8 witness: the test cloud and the unknown key of test_select.py. -/
theorem claim_C8_witness :
    getAttrData testPC "unknown_key_123" = none ∧
    select_below (some testPC) (some "unknown_key_123") (Threshold.fin 13) =
      Except.error PyErr.valueError ∧
    select_below none (some "unknown_key_123") (Threshold.fin 13) =
      Except.error PyErr.valueError ∧
    select_above (some testPC) none (Threshold.fin 13) =
      Except.error PyErr.valueError := by
  have h := claim_C8 testPC "unknown_key_123" (Threshold.fin 13) rfl
  exact ⟨rfl, h.2.2.2.2.1, h.1, h.2.2.2.1⟩

/-- C9 counterexample: params containing only a falsy entry (the empty
string, as for a mapping with an empty-string key) is non-empty, yet the
appended provenance record carries no parameters key: presence is governed
by any(params), not by non-emptiness. -/
theorem claim_C9_counterexample :
    ([""] : List String).length = 1 ∧
    ((add_metadata provPC "filter" [""] 5 "v1").provenance.getD []).getLast?.map
      (fun r => r.parameters) = some none :=
  ⟨rfl, rfl⟩

/-- C9 (amended): add_metadata appends exactly one record at the end of the
provenance list, whose time, module and version are the given ones and
whose parameters key is present if and only if params has a truthy entry
(any(params)); the earlier records and every point attribute array are left
unchanged. -/
theorem claim_C9 (pc : MetaPC) (module : String) (params : List String)
    (now : Nat) (version : String) :
    (add_metadata pc module params now version).points = pc.points ∧
    ((add_metadata pc module params now version).provenance.getD []).length =
      (pc.provenance.getD []).length + 1 ∧
    ((add_metadata pc module params now version).provenance.getD []).take
      (pc.provenance.getD []).length = pc.provenance.getD [] ∧
    ((add_metadata pc module params now version).provenance.getD []).getLast?.map
      (fun r => (r.time, r.module, r.version, r.parameters.isSome)) =
      some (now, module, version, pyAnyStr params) ∧
    ((add_metadata pc module params now version).provenance.getD []).getLast?.map
      (fun r => r.parameters.getD []) = some (if pyAnyStr params then params else []) := by
  refine ⟨rfl, by simp [add_metadata], ?_, ?_, ?_⟩
  · simp only [add_metadata, Option.getD_some]
    exact List.take_left _ _
  · by_cases hp : pyAnyStr params = true <;>
      simp [add_metadata, List.getLast?_concat, hp]
  · by_cases hp : pyAnyStr params = true <;>
      simp [add_metadata, List.getLast?_concat, hp]

lemma maskFilter_replicate_true (d : List ℚ) :
    maskFilter d (List.replicate d.length true) = d := by
  induction d with
  | nil => rfl
  | cons a t ih =>
      simp only [List.length_cons, List.replicate_succ, maskFilter,
        List.zip_cons_cons, List.filterMap_cons] at *
      simp [ih]

mutual
theorem copy_all_true : ∀ (p : PCValue) (n : Nat),
    arraysHaveLen p n = true →
    copy_point_cloud p (some (List.replicate n true)) = p
  | .dict es, n, h => by
      have he := copyEntries_all_true es n (by simpa [arraysHaveLen] using h)
      simp [copy_point_cloud, he]
  | .array d, n, h => by
      have hl : d.length = n := by simpa [arraysHaveLen] using h
      subst hl
      by_cases hp : pyAny d = true <;>
        simp [copy_point_cloud, hp, maskFilter_replicate_true]
  | .other t, _, _ => by simp [copy_point_cloud]
termination_by structural p => p
theorem copyEntries_all_true : ∀ (es : PCEntries) (n : Nat),
    entriesHaveLen es n = true →
    copyEntries es (some (List.replicate n true)) = es
  | .nil, _, _ => by simp [copyEntries]
  | .cons k v rest, n, h => by
      have hv := copy_all_true v n (by
        have := h
        simp only [entriesHaveLen, Bool.and_eq_true] at this
        exact this.1)
      have hr := copyEntries_all_true rest n (by
        have := h
        simp only [entriesHaveLen, Bool.and_eq_true] at this
        exact this.2)
      simp [copyEntries, hv, hr]
termination_by structural es => es
end

/-- C7: for every point cloud whose arrays all have the length of the
selected attribute's data (the data-model invariant), select_below at plus
infinity and select_above at minus infinity each return a point cloud with
exactly the original points - same point count, identical attribute values
(the result is structurally equal to the input; the copy is a freshly
built dict, so the Python-level object identity always differs). Selection
is modelled from the spec, its module is not in the sources; the copy it
performs is the embedded copy_point_cloud of utils.py. -/
theorem claim_C7 (p : PCValue) (a : String) (d : List ℚ)
    (hattr : getAttrData p a = some d)
    (hlen : arraysHaveLen p d.length = true) :
    select_below (some p) (some a) Threshold.pinf = Except.ok p ∧
    select_above (some p) (some a) Threshold.ninf = Except.ok p := by
  have hmap_lt : d.map (fun q => tLT q Threshold.pinf) = List.replicate d.length true := by
    simp [tLT, List.map_const']
  have hmap_gt : d.map (fun q => tGT q Threshold.ninf) = List.replicate d.length true := by
    simp [tGT, List.map_const']
  have hcopy := copy_all_true p d.length hlen
  constructor
  · simp [select_below, select_generic, hattr, hmap_lt, hcopy]
  · simp [select_above, select_generic, hattr, hmap_gt, hcopy]

/-- C7 witness: the embedded test cloud of test_select.py, selecting on z. -/
theorem claim_C7_witness :
    select_below (some testPC) (some "z") Threshold.pinf = Except.ok testPC ∧
    select_above (some testPC) (some "z") Threshold.ninf = Except.ok testPC :=
  claim_C7 testPC "z" [31, 32, 33] rfl rfl

lemma dictLookup_map_replace (d : List (String × Extractor)) (k : String)
    (v : Extractor) (q : String) :
    dictLookup (d.map fun p => if p.1 = k then (k, v) else p) q =
      if q = k then (if d.any fun p => decide (p.1 = k) then some v else none)
      else dictLookup d q := by
  induction d with
  | nil => simp [dictLookup]
  | cons hd tl ih =>
      by_cases h1 : hd.1 = k
      · by_cases h2 : q = k
        · subst h2
          simp_all [dictLookup, List.find?_cons, List.any_cons]
        · have h2' : ¬ k = q := fun h => h2 h.symm
          simp_all [dictLookup, List.find?_cons, List.any_cons,
            decide_eq_false h2']
      · by_cases h2 : q = k
        · subst h2
          simp_all [dictLookup, List.find?_cons, List.any_cons]
          rw [decide_eq_false h1, Bool.false_or]
        · by_cases h3 : hd.1 = q <;>
            simp_all [dictLookup, List.find?_cons, List.any_cons]

lemma dictLookup_pyDictInsert (d : List (String × Extractor)) (k : String)
    (v : Extractor) (q : String) :
    dictLookup (pyDictInsert d k v) q =
      if q = k then some v else dictLookup d q := by
  unfold pyDictInsert
  by_cases ha : (d.any fun p => decide (p.1 = k)) = true
  · simp only [ha, if_true, dictLookup_map_replace, ha]
  · rw [if_neg ha]
    unfold dictLookup
    rw [List.find?_append]
    have hnone : d.find? (fun p => decide (p.1 = q)) = none ∨ ¬ q = k := by
      by_cases h2 : q = k
      · subst h2
        left
        rw [List.find?_eq_none]
        intro p hp
        simp only [decide_eq_true_eq]
        intro hpq
        exact ha (List.any_eq_true.mpr ⟨p, hp, by simp [hpq]⟩)
      · right; exact h2
    by_cases h2 : q = k
    · subst h2
      rcases hnone with hn | hn
      · simp [hn, List.find?_cons, Option.or]
      · exact absurd rfl hn
    · have hq : decide (k = q) = false := decide_eq_false fun h => h2 h.symm
      simp [List.find?_cons, hq, h2, Option.or_none]

lemma dictLookup_foldl (pairs : List (String × Extractor))
    (d : List (String × Extractor)) (q : String) :
    dictLookup (pairs.foldl (fun acc p => pyDictInsert acc p.1 p.2) d) q =
      ((pairs.reverse.find? fun p => decide (p.1 = q)).map fun p => p.2).or
        (dictLookup d q) := by
  induction pairs generalizing d with
  | nil => simp
  | cons p ps ih =>
      rw [List.foldl_cons, ih, List.reverse_cons, List.find?_append,
        dictLookup_pyDictInsert]
      cases hf : ps.reverse.find? (fun r => decide (r.1 = q)) with
      | some r => simp [Option.or]
      | none =>
          by_cases h2 : q = p.1
          · subst h2
            simp [List.find?_cons, Option.or]
          · have hq : decide (p.1 = q) = false := decide_eq_false fun h => h2 h.symm
            simp [List.find?_cons, hq, h2, Option.or]

/-- C4 (amended): create_default_feature_map never fails, duplicates
included: for every extractor list and every feature name, the returned
mapping binds the name to the extractor of the last (name, extractor) pair
that provides it - a duplicate name makes the later extractor silently
shadow the earlier one, rather than failing at construction. -/
theorem claim_C4 (extractors : List Extractor) (q : String) :
    dictLookup (create_default_feature_map extractors) q =
      ((_create_name_extractor_pairs extractors).reverse.find? fun p =>
        decide (p.1 = q)).map fun p => p.2 := by
  unfold create_default_feature_map pyDictOf
  rw [dictLookup_foldl]
  simp [dictLookup]

/-- C4 counterexample: two distinct extractor instances providing the same
feature name f - the construction returns a mapping (it cannot fail) in
which f is bound to the later instance, silently shadowing the earlier. -/
theorem claim_C4_counterexample :
    create_default_feature_map [dupExtractorA, dupExtractorB] =
      [("f", dupExtractorB)] ∧
    dictLookup (create_default_feature_map [dupExtractorA, dupExtractorB]) "f" =
      some dupExtractorB ∧
    decide (dupExtractorA = dupExtractorB) = false :=
  ⟨rfl, rfl, rfl⟩

lemma xyzGuard_false_of_bad (n : Nat) (nbs : List (List Int)) (nb : List Int)
    (e : Int) (hnb : nb ∈ nbs) (he : e ∈ nb)
    (hbad : resolveIndex n e = none) : xyzGuard n nbs = false := by
  cases hg : xyzGuard n nbs with
  | false => rfl
  | true =>
      exfalso
      obtain ⟨i, hi, hie⟩ := List.mem_iff_getElem.mp hnb
      obtain ⟨j, hj, hje⟩ := List.mem_iff_getElem.mp he
      have houter := (List.all_eq_true.mp hg) i (List.mem_range.mpr hi)
      have hjmax : j < maxNbLength nbs := by
        have h1 : nb.length ≤ maxNbLength nbs := length_le_maxNbLength nbs nb hnb
        omega
      have hinner := (List.all_eq_true.mp houter) j (List.mem_range.mpr hjmax)
      have hgetd : nbs.getD i [] = nb := by
        rw [List.getD_eq_getElem nbs [] hi, hie]
      have hentry : indicesEntry nbs i j = e := by
        unfold indicesEntry
        rw [hgetd, List.getD_eq_getElem nb _ (by omega), hje]
      rw [hentry, hbad] at hinner
      simp at hinner

/-- C1 (amended): for every source point cloud, get_xyz_per_neighborhood
fails with ValueError when the list of neighborhoods is empty; whenever it
returns a tensor, that tensor has shape (N, 3, L) with N the number of
neighborhoods and L the maximum neighborhood length; and when some neighbor
index is out of range for the source point count it fails with IndexError,
not ValueError. -/
theorem claim_C1 (xs ys zs : List ℚ) (nbs : List (List Int)) :
    (nbs = [] →
      get_xyz_per_neighborhood xs ys zs nbs = Except.error PyErr.valueError) ∧
    (resultOk (get_xyz_per_neighborhood xs ys zs nbs) = true →
      resultShape (get_xyz_per_neighborhood xs ys zs nbs) =
        some (nbs.length, 3, maxNbLength nbs)) ∧
    (xs.length = ys.length → ys.length = zs.length →
      (∃ nb ∈ nbs, ∃ e ∈ nb, e < -(xs.length : Int) ∨ (xs.length : Int) ≤ e) →
      get_xyz_per_neighborhood xs ys zs nbs = Except.error PyErr.indexError) := by
  refine ⟨?_, ?_, ?_⟩
  · intro h
    subst h
    rfl
  · intro hok
    cases hE : get_xyz_per_neighborhood xs ys zs nbs with
    | error e => rw [hE] at hok; simp [resultOk] at hok
    | ok t =>
        have ht := get_xyz_ok_inv xs ys zs nbs t hE
        subst ht
        simp [resultShape]
  · intro h1 h2 ⟨nb, hnb, e, he, hbad⟩
    have hne : nbs.isEmpty = false :=
      List.isEmpty_eq_false.mpr (List.ne_nil_of_mem hnb)
    have hg : xyzGuard xs.length nbs = false :=
      xyzGuard_false_of_bad xs.length nbs nb e hnb he
        (resolveIndex_none_of_out xs.length e hbad)
    have hg2 : xyzGuard zs.length nbs = false := by rw [← h2, ← h1]; exact hg
    unfold get_xyz_per_neighborhood
    rw [hne]
    simp [h1, h2, hg, hg2]

/-- C1 witness: the empty neighborhoods list raises ValueError; a neighbor
index equal to the point count of a one-point cloud raises IndexError. -/
theorem claim_C1_witness :
    get_xyz_per_neighborhood [0] [0] [0] [] = Except.error PyErr.valueError ∧
    get_xyz_per_neighborhood [0] [0] [0] [[1]] = Except.error PyErr.indexError := by
  constructor
  · exact (claim_C1 [0] [0] [0] []).1 rfl
  · exact (claim_C1 [0] [0] [0] [[1]]).2.2 rfl rfl
      ⟨[1], by decide, 1, by decide, by decide⟩

/-- C1 counterexample: a neighbor index out of range for the source cloud
makes get_xyz_per_neighborhood fail with IndexError (numpy take), which is
a different exception from the ValueError the claim states. -/
theorem claim_C1_counterexample :
    get_xyz_per_neighborhood [0] [0] [0] [[1]] = Except.error PyErr.indexError ∧
    (PyErr.indexError == PyErr.valueError) = false :=
  ⟨rfl, rfl⟩

lemma xyzGuard_true_of_all (n : Nat) (nbs : List (List Int))
    (h : ∀ i j, i < nbs.length → j < maxNbLength nbs →
      (resolveIndex n (indicesEntry nbs i j)).isSome = true) :
    xyzGuard n nbs = true := by
  unfold xyzGuard
  rw [List.all_eq_true]
  intro i hi
  rw [List.all_eq_true]
  intro j hj
  exact h i j (List.mem_range.mp hi) (List.mem_range.mp hj)

lemma xyzGuard_true_of_range (n : Nat) (nbs : List (List Int))
    (hin : (nbs.all fun nb => nb.all fun e =>
        decide (-(n : Int) ≤ e) && decide (e < (n : Int))) = true)
    (hmax : maxNbLength nbs ≤ n) : xyzGuard n nbs = true := by
  apply xyzGuard_true_of_all
  intro i j hi hj
  unfold indicesEntry
  by_cases hlt : j < (nbs.getD i []).length
  · have hnbmem : nbs.getD i [] ∈ nbs := by
      rw [List.getD_eq_getElem nbs [] hi]
      exact List.getElem_mem hi
    have hmem : (nbs.getD i []).getD j (Int.ofNat j) ∈ nbs.getD i [] :=
      getD_mem _ _ _ hlt
    have hrange :=
      (List.all_eq_true.mp ((List.all_eq_true.mp hin) _ hnbmem)) _ hmem
    simp only [Bool.and_eq_true, decide_eq_true_eq] at hrange
    exact resolveIndex_isSome_of_range n _ hrange.1 hrange.2
  · rw [List.getD_eq_default _ _ (Nat.not_lt.mp hlt)]
    rw [resolveIndex_ofNat n j (by omega)]
    rfl

/-- C10: on a well-formed source cloud with N points, a neighborhood
containing a negative index -k with 1 le k le N is silently accepted by
get_xyz_per_neighborhood - provided every indices-matrix entry is in numpy
range the call returns a tensor, the slot of the negative index is valid in
the mask, and the gathered coordinates at that slot are those of point
N - k (wrap-around from the end), even though the external interface
specifies non-negative indices. -/
theorem claim_C10 (xs ys zs : List ℚ) (nbs : List (List Int)) (k i j : Nat)
    (hxy : xs.length = ys.length) (hyz : ys.length = zs.length)
    (hin : (nbs.all fun nb => nb.all fun e =>
        decide (-(xs.length : Int) ≤ e) && decide (e < (xs.length : Int))) = true)
    (hmax : maxNbLength nbs ≤ xs.length)
    (hk1 : 1 ≤ k) (hkN : k ≤ xs.length)
    (hi : i < nbs.length) (hj : j < (nbs.getD i []).length)
    (he : (nbs.getD i []).getD j 0 = -(k : Int)) :
    ∃ t, get_xyz_per_neighborhood xs ys zs nbs = Except.ok t ∧
      t.mask i 0 j = false ∧
      t.data i 0 j = xs.getD (xs.length - k) 0 ∧
      t.data i 1 j = ys.getD (xs.length - k) 0 ∧
      t.data i 2 j = zs.getD (xs.length - k) 0 := by
  have hne : nbs.isEmpty = false := by
    cases nbs with
    | nil => simp at hi
    | cons a l => rfl
  have hg := xyzGuard_true_of_range xs.length nbs hin hmax
  have hentry : indicesEntry nbs i j = -(k : Int) := by
    unfold indicesEntry
    rw [List.getD_eq_getElem _ _ hj]
    rw [List.getD_eq_getElem _ _ hj] at he
    exact he
  have hdata : ∀ c, xyzData xs ys zs nbs i c j =
      coordVal xs ys zs c (xs.length - k) := by
    intro c
    unfold xyzData
    rw [if_pos hj]
    unfold xyzRaw
    rw [hentry, resolveIndex_neg xs.length k hk1 hkN]
  refine ⟨⟨nbs.length, 3, maxNbLength nbs, xyzData xs ys zs nbs, nbMask nbs⟩,
    ?_, ?_, ?_, ?_, ?_⟩
  · have hgy : xyzGuard ys.length nbs = true := by rw [← hxy]; exact hg
    have hgz : xyzGuard zs.length nbs = true := by rw [← hyz, ← hxy]; exact hg
    unfold get_xyz_per_neighborhood
    rw [hne]
    simp [hxy, hyz, hg, hgy, hgz]
  · have hj2 : j < (nbs[i]?.getD []).length := by
      simpa [List.getD_eq_getElem?_getD] using hj
    simp [nbMask, hj2]
  · show xyzData xs ys zs nbs i 0 j = xs.getD (xs.length - k) 0
    rw [hdata 0]; simp [coordVal]
  · show xyzData xs ys zs nbs i 1 j = ys.getD (xs.length - k) 0
    rw [hdata 1]; simp [coordVal]
  · show xyzData xs ys zs nbs i 2 j = zs.getD (xs.length - k) 0
    rw [hdata 2]; simp [coordVal]

/-- C10 witness: a two-point cloud gathered with the neighborhood [-1]: no
failure, and the slot holds the coordinates of the last point (index 1). -/
theorem claim_C10_witness :
    resultData (get_xyz_per_neighborhood [10, 20] [30, 40] [50, 60] [[-1], [0]]) 0 0 0 =
      some 20 ∧
    resultMask (get_xyz_per_neighborhood [10, 20] [30, 40] [50, 60] [[-1], [0]]) 0 0 0 =
      some false := by
  obtain ⟨t, ht, hm, h0, h1, h2⟩ :=
    claim_C10 [10, 20] [30, 40] [50, 60] [[-1], [0]] 1 0 0 rfl rfl (by decide)
      (by decide) (by decide) (by decide) (by decide) (by decide) (by decide)
  rw [ht]
  refine ⟨?_, ?_⟩
  · simp only [resultData]
    rw [h0]
    decide
  · simp only [resultMask]
    rw [hm]

lemma entry_valid_of_perm (N : Nat) (nbs : List (List Int))
    (hperm : nbs.flatten.Perm ((List.range N).map Int.ofNat)) :
    ∀ i j, i < nbs.length → j < maxNbLength nbs →
      (resolveIndex N (indicesEntry nbs i j)).isSome = true := by
  intro i j hi hj
  unfold indicesEntry
  by_cases hlt : j < (nbs.getD i []).length
  · have hmem : (nbs.getD i []).getD j (Int.ofNat j) ∈ nbs.flatten :=
      getD_mem_of_mem_getD nbs i j _ hi hlt
    obtain ⟨x, hx, hxe⟩ := List.mem_map.mp (hperm.mem_iff.mp hmem)
    rw [← hxe, resolveIndex_ofNat N x (List.mem_range.mp hx)]
    rfl
  · rw [List.getD_eq_default _ _ (Nat.not_lt.mp hlt)]
    have hN : maxNbLength nbs ≤ N := by
      have h1 := maxNbLength_le_flatten_length nbs
      have h2 : nbs.flatten.length = N := by
        rw [hperm.length_eq]
        simp
      omega
    rw [resolveIndex_ofNat N j (by omega)]
    rfl

/-- C2: for a source cloud with N points and neighborhoods that together
contain each of the N source indices exactly once, both gatherers succeed
and every valid (unmasked) cell holds exactly the source value of the
neighbor index at that position, in the original neighbor order: channel 0
is x, channel 1 is y, channel 2 is z in the coordinate variant, and channel
a is the a-th caller-supplied attribute name in the generic variant. -/
theorem claim_C2 (xs ys zs : List ℚ) (attrs : List (String × List ℚ))
    (nbs : List (List Int)) (names : List String)
    (hxy : xs.length = ys.length) (hyz : ys.length = zs.length)
    (hne : nbs.isEmpty = false)
    (hperm : nbs.flatten.Perm ((List.range xs.length).map Int.ofNat))
    (hnames : (names.all fun nm =>
        match lookupAttr attrs nm with
        | some arr => decide (arr.length = xs.length)
        | none => false) = true) :
    (∃ t, get_xyz_per_neighborhood xs ys zs nbs = Except.ok t ∧
      ∀ i j, i < nbs.length → j < (nbs.getD i []).length →
        0 ≤ (nbs.getD i []).getD j 0 ∧
        t.mask i 0 j = false ∧ t.mask i 1 j = false ∧ t.mask i 2 j = false ∧
        t.data i 0 j = xs.getD ((nbs.getD i []).getD j 0).toNat 0 ∧
        t.data i 1 j = ys.getD ((nbs.getD i []).getD j 0).toNat 0 ∧
        t.data i 2 j = zs.getD ((nbs.getD i []).getD j 0).toNat 0) ∧
    (∃ u, get_attributes_per_neighborhood attrs nbs names = Except.ok u ∧
      ∀ i a j, i < nbs.length → a < names.length → j < (nbs.getD i []).length →
        u.mask i a j = false ∧
        u.data i a j = ((lookupAttr attrs (names.getD a "")).getD []).getD
          ((nbs.getD i []).getD j 0).toNat 0) := by
  have hvalid := entry_valid_of_perm xs.length nbs hperm
  have hg : xyzGuard xs.length nbs = true := xyzGuard_true_of_all _ _ hvalid
  constructor
  · refine ⟨⟨nbs.length, 3, maxNbLength nbs, xyzData xs ys zs nbs, nbMask nbs⟩,
      ?_, ?_⟩
    · have hgy : xyzGuard ys.length nbs = true := by rw [← hxy]; exact hg
      have hgz : xyzGuard zs.length nbs = true := by rw [← hyz, ← hxy]; exact hg
      unfold get_xyz_per_neighborhood
      rw [hne]
      simp [hxy, hyz, hg, hgy, hgz]
    · intro i j hi hj
      have hentry_mem : (nbs.getD i []).getD j 0 ∈ nbs.flatten :=
        getD_mem_of_mem_getD nbs i j 0 hi hj
      obtain ⟨x, hx, hxe⟩ := List.mem_map.mp (hperm.mem_iff.mp hentry_mem)
      have hxN : x < xs.length := List.mem_range.mp hx
      have hres : resolveIndex xs.length ((nbs.getD i []).getD j 0) = some x := by
        rw [← hxe]
        exact resolveIndex_ofNat _ _ hxN
      have htoNat : ((nbs.getD i []).getD j 0).toNat = x := by
        rw [← hxe]
        rfl
      have hj2 : j < (nbs[i]?.getD []).length := by
        simpa [List.getD_eq_getElem?_getD] using hj
      have hmask : ∀ c, nbMask nbs i c j = false := by
        intro c
        simp [nbMask, hj2]
      have hdata : ∀ c, xyzData xs ys zs nbs i c j = coordVal xs ys zs c x := by
        intro c
        unfold xyzData
        rw [if_pos hj]
        unfold xyzRaw
        have hent : indicesEntry nbs i j = (nbs.getD i []).getD j 0 := by
          unfold indicesEntry
          rw [List.getD_eq_getElem _ _ hj, List.getD_eq_getElem _ _ hj]
        rw [hent, hres]
      refine ⟨?_, hmask 0, hmask 1, hmask 2, ?_, ?_, ?_⟩
      · rw [← hxe, Int.ofNat_eq_natCast]
        exact Int.natCast_nonneg x
      · show xyzData xs ys zs nbs i 0 j = xs.getD ((nbs.getD i []).getD j 0).toNat 0
        rw [hdata 0, htoNat]
        simp [coordVal]
      · show xyzData xs ys zs nbs i 1 j = ys.getD ((nbs.getD i []).getD j 0).toNat 0
        rw [hdata 1, htoNat]
        simp [coordVal]
      · show xyzData xs ys zs nbs i 2 j = zs.getD ((nbs.getD i []).getD j 0).toNat 0
        rw [hdata 2, htoNat]
        simp [coordVal]
  · have herr : attrsGuardErr attrs nbs names = none := by
      unfold attrsGuardErr
      rw [List.findSome?_eq_none_iff]
      intro nb hnbf
      have hnb : nb ∈ nbs := (List.mem_filter.mp hnbf).1
      rw [List.findSome?_eq_none_iff]
      intro nm hnm
      unfold attrGatherErr
      have hnm2 := (List.all_eq_true.mp hnames) nm hnm
      cases hla : lookupAttr attrs nm with
      | none =>
          rw [hla] at hnm2
          simp at hnm2
      | some arr =>
          rw [hla] at hnm2
          simp only [decide_eq_true_eq] at hnm2
          have hall : (nb.all fun e => (resolveIndex arr.length e).isSome) = true := by
            rw [List.all_eq_true]
            intro e he
            have hmem : e ∈ nbs.flatten := List.mem_flatten.mpr ⟨nb, hnb, he⟩
            obtain ⟨x, hx, hxe⟩ := List.mem_map.mp (hperm.mem_iff.mp hmem)
            rw [← hxe, hnm2, resolveIndex_ofNat _ _ (List.mem_range.mp hx)]
            rfl
          simp [hall]
    refine ⟨⟨nbs.length, names.length, maxNbLength nbs,
      attrData attrs nbs names, nbMask nbs⟩, ?_, ?_⟩
    · unfold get_attributes_per_neighborhood
      rw [hne, herr]
      simp
    · intro i a j hi ha hj
      have hj2 : j < (nbs[i]?.getD []).length := by
        simpa [List.getD_eq_getElem?_getD] using hj
      constructor
      · simp [nbMask, hj2]
      · show attrData attrs nbs names i a j =
          ((lookupAttr attrs (names.getD a "")).getD []).getD
            ((nbs.getD i []).getD j 0).toNat 0
        unfold attrData
        rw [if_pos hj]
        have hnm : names.getD a "" ∈ names := by
          rw [List.getD_eq_getElem _ _ ha]
          exact List.getElem_mem ha
        have hnm2 := (List.all_eq_true.mp hnames) _ hnm
        cases hla : lookupAttr attrs (names.getD a "") with
        | none =>
            rw [hla] at hnm2
            simp at hnm2
        | some arr =>
            rw [hla] at hnm2
            simp only [decide_eq_true_eq] at hnm2
            have hentry_mem : (nbs.getD i []).getD j 0 ∈ nbs.flatten :=
              getD_mem_of_mem_getD nbs i j 0 hi hj
            obtain ⟨x, hx, hxe⟩ := List.mem_map.mp (hperm.mem_iff.mp hentry_mem)
            have hres : resolveIndex arr.length ((nbs.getD i []).getD j 0) = some x := by
              rw [← hxe, hnm2]
              exact resolveIndex_ofNat _ _ (List.mem_range.mp hx)
            have htoNat : ((nbs.getD i []).getD j 0).toNat = x := by
              rw [← hxe]
              rfl
            have hres2 : resolveIndex arr.length ((nbs[i]?.getD [])[j]?.getD 0) = some x := by
              simpa [List.getD_eq_getElem?_getD] using hres
            have htoNat2 : ((nbs[i]?.getD [])[j]?.getD 0).toNat = x := by
              simpa [List.getD_eq_getElem?_getD] using htoNat
            simp [hres, htoNat, hres2, htoNat2]

/-- C2 witness: a two-point cloud whose indices are split over two
neighborhoods in reversed order: the gathered cells reproduce the source
values at the neighbor indices, for coordinates and for a named
attribute. -/
theorem claim_C2_witness :
    resultData (get_xyz_per_neighborhood [5, 7] [6, 8] [9, 4] [[1], [0]]) 0 0 0 =
      some 7 ∧
    resultMask (get_xyz_per_neighborhood [5, 7] [6, 8] [9, 4] [[1], [0]]) 0 0 0 =
      some false ∧
    resultData (get_attributes_per_neighborhood [("z", [50, 60])] [[1], [0]] ["z"]) 0 0 0 =
      some 60 := by
  obtain ⟨hx, ha⟩ :=
    claim_C2 [5, 7] [6, 8] [9, 4] [("z", [50, 60])] [[1], [0]] ["z"]
      rfl rfl rfl (by decide) (by decide)
  obtain ⟨t, ht, hcell⟩ := hx
  obtain ⟨u, hu, hcellu⟩ := ha
  have h1 := hcell 0 0 (by decide) (by decide)
  have h2 := hcellu 0 0 0 (by decide) (by decide) (by decide)
  refine ⟨?_, ?_, ?_⟩
  · rw [ht]
    simp only [resultData]
    rw [h1.2.2.2.2.1]
    decide
  · rw [ht]
    simp only [resultMask]
    rw [h1.2.1]
  · rw [hu]
    simp only [resultData]
    rw [h2.2]
    decide
